import Mathlib

/-!
Shallow embedding of the model code in `fairseq/models/vqvae_lm.py` and
`fairseq/models/conv_encoder.py` (repository `inconnu11/fairseq-vqvae-text`).

Tensors are modelled as `Fin`-indexed functions with rational entries; the
time dimension of variable-length activations is indexed by `ℕ` (positions
beyond the tensor's extent carry the value `0`, matching the mask
multiplications in the source).  Integer tensor arithmetic (the length
computation `(lengths - 1) / stride + 1`) is modelled with natural-number
division.  `torch` primitives that the repository merely calls
(`nn.Conv1d`, `F.relu`) are taken as arbitrary layer functions, since the
claims under study hold for every choice of convolution weights.
-/

/-- First index attaining the maximum of `f` over `Fin (n+1)`, mirroring the
tie-breaking of `torch.max(dim)` (index of the first maximal value). -/
def argmaxFin : (n : ℕ) → (Fin (n + 1) → ℚ) → Fin (n + 1)
  | 0, _ => 0
  | n + 1, f =>
    if f (argmaxFin n (fun i => f i.succ)).succ ≤ f 0 then 0
    else (argmaxFin n (fun i => f i.succ)).succ

theorem argmaxFin_ge : ∀ (n : ℕ) (f : Fin (n + 1) → ℚ) (k : Fin (n + 1)),
    f k ≤ f (argmaxFin n f) := by
  intro n
  induction n with
  | zero =>
    intro f k
    have hk : k = 0 := Fin.fin_one_eq_zero k
    simp [argmaxFin, hk]
  | succ n ih =>
    intro f k
    unfold argmaxFin
    by_cases h : f (argmaxFin n (fun i => f i.succ)).succ ≤ f 0
    · rw [if_pos h]
      induction k using Fin.cases with
      | zero => exact le_refl _
      | succ i => exact le_trans (ih (fun i => f i.succ) i) h
    · rw [if_neg h]
      induction k using Fin.cases with
      | zero => exact le_of_lt (lt_of_not_le h)
      | succ i => exact ih (fun i => f i.succ) i

namespace vqvae_lm

/-- `compute_conv_mask` from `vqvae_lm.py` (lines 33-40): per-example valid
lengths `(lengths - 1) / stride + 1` (integer division, odd kernels assumed),
and the boolean mask of shape `batch x T'` where `T'` is the maximum valid
length; `mask[i][t] = t < valid_lengths[i]` for column indices `t < T'`. -/
def compute_conv_mask {B : ℕ} (lengths : Fin B → ℕ) (stride : ℕ) :
    (Fin B → ℕ) × (Fin B → ℕ → Bool) :=
  ((fun i => (lengths i - 1) / stride + 1),
   fun i t =>
     decide (t < Finset.univ.sup (fun j => (lengths j - 1) / stride + 1)) &&
     decide (t < (lengths i - 1) / stride + 1))

/-- Activation state threaded through the strided-convolution loop of
`ConvEncoder.forward`: the `batch x C x T` tensor (time indexed by `ℕ`)
together with the per-example valid lengths. -/
structure ConvState (B C : ℕ) where
  x : Fin B → Fin C → ℕ → ℚ
  lengths : Fin B → ℕ

/-- One entry of `zip(self.conv_blocks, self.strides)`: the function computed
by `F.relu(conv_layer(·))` (an arbitrary map, since `nn.Conv1d` and `F.relu`
are framework primitives) paired with the layer's stride. -/
def ConvLayer (B C : ℕ) : Type :=
  ((Fin B → Fin C → ℕ → ℚ) → (Fin B → Fin C → ℕ → ℚ)) × ℕ

/-- One iteration of the loop body of `ConvEncoder.forward`:
`input = F.relu(conv_layer(input))`, then `lengths, new_mask =
compute_conv_mask(lengths, s)`, then `input = input * new_mask`. -/
def convStep {B C : ℕ} (st : ConvState B C) (layer : ConvLayer B C) :
    ConvState B C :=
  { x := fun b c t =>
      layer.1 st.x b c t *
        (if (compute_conv_mask st.lengths layer.2).2 b t then 1 else 0),
    lengths := (compute_conv_mask st.lengths layer.2).1 }

/-- The state after the whole convolution loop of `ConvEncoder.forward`. -/
def ConvEncoder.outState {B C : ℕ} (layers : List (ConvLayer B C))
    (input : Fin B → Fin C → ℕ → ℚ) (lengths : Fin B → ℕ) : ConvState B C :=
  layers.foldl convStep ⟨input, lengths⟩

/-- `ConvEncoder.forward` from `vqvae_lm.py` (lines 52-62): run the strided
convolution loop, apply the `1x1` convolution `quant_conv` (an arbitrary
pointwise map `quant_conv : (Fin C → ℚ) → Fin D → ℚ`), and return the output
permuted to `T' x batch x D` together with the final mask. -/
def ConvEncoder.forward {B C D : ℕ} (layers : List (ConvLayer B C))
    (quant_conv : (Fin C → ℚ) → Fin D → ℚ)
    (input : Fin B → Fin C → ℕ → ℚ) (lengths : Fin B → ℕ) :
    (ℕ → Fin B → Fin D → ℚ) × (Fin B → ℕ → Bool) :=
  ((fun t b d => quant_conv (fun c => (ConvEncoder.outState layers input lengths).x b c t) d),
   fun b t =>
     decide (t < Finset.univ.sup (ConvEncoder.outState layers input lengths).lengths) &&
     decide (t < (ConvEncoder.outState layers input lengths).lengths b))

/-- The registered buffers (and hyperparameters) of a `Quantize` module:
`embed : dim x n_embed`, `cluster_size : n_embed`, `embed_avg : dim x n_embed`
(from `Quantize.__init__`, lines 66-77). -/
structure QuantizeState (dim n_embed : ℕ) where
  embed : Fin dim → Fin n_embed → ℚ
  cluster_size : Fin n_embed → ℚ
  embed_avg : Fin dim → Fin n_embed → ℚ
  decay : ℚ
  eps : ℚ

/-- The distance matrix of `Quantize.forward` for one flattened row `x`:
`x.pow(2).sum() - 2 * x @ embed + embed.pow(2).sum(0)` at column `k`. -/
def dist {dim K : ℕ} (st : QuantizeState dim (K + 1)) (x : Fin dim → ℚ)
    (k : Fin (K + 1)) : ℚ :=
  (∑ c, x c ^ 2) - 2 * ∑ c, x c * st.embed c k + ∑ c, st.embed c k ^ 2

/-- `embed_ind` of `Quantize.forward`: `(-dist).max(1)` per flattened row,
reshaped back to `T x batch`. -/
def embedInd {dim K T B : ℕ} (st : QuantizeState dim (K + 1))
    (input : Fin T → Fin B → Fin dim → ℚ) : Fin T → Fin B → Fin (K + 1) :=
  fun t b => argmaxFin K (fun k => -(dist st (input t b) k))

/-- `Quantize.embed_code` (lines 149-150): `F.embedding(embed_id,
embed.transpose(0, 1))`, i.e. row `embed_id` of the transposed codebook. -/
def embed_code {dim K T B : ℕ} (st : QuantizeState dim (K + 1))
    (embed_id : Fin T → Fin B → Fin (K + 1)) : Fin T → Fin B → Fin dim → ℚ :=
  fun t b c => st.embed c (embed_id t b)

/-- `cluster_sum = unmasked_embed_onehot.sum(0)`: for each code `k`, the sum
over the unmasked flattened rows of the one-hot assignment to `k`. -/
def cluster_sum {K T B : ℕ} (ind : Fin T → Fin B → Fin (K + 1))
    (input_mask : Fin T → Fin B → Bool) : Fin (K + 1) → ℚ :=
  fun k => ∑ p : Fin T × Fin B,
    if input_mask p.1 p.2 = true ∧ ind p.1 p.2 = k then 1 else 0

/-- `embed_sum = unmasked_flatten.transpose(0, 1) @ unmasked_embed_onehot`:
entry `(c, k)` sums coordinate `c` of the unmasked rows assigned to `k`. -/
def embed_sum {dim K T B : ℕ} (input : Fin T → Fin B → Fin dim → ℚ)
    (ind : Fin T → Fin B → Fin (K + 1)) (input_mask : Fin T → Fin B → Bool) :
    Fin dim → Fin (K + 1) → ℚ :=
  fun c k => ∑ p : Fin T × Fin B,
    if input_mask p.1 p.2 = true ∧ ind p.1 p.2 = k then input p.1 p.2 c else 0

/-- The training-mode buffer update of `Quantize.forward` (lines 114-136):
EMA updates of `cluster_size` and `embed_avg` followed by the Laplace-smoothed
renormalisation written into `embed`. -/
def updateState {dim K T B : ℕ} (st : QuantizeState dim (K + 1))
    (input : Fin T → Fin B → Fin dim → ℚ) (input_mask : Fin T → Fin B → Bool) :
    QuantizeState dim (K + 1) :=
  { embed := fun c k =>
      (st.decay * st.embed_avg c k +
        (1 - st.decay) * embed_sum input (embedInd st input) input_mask c k) /
      (((st.decay * st.cluster_size k +
          (1 - st.decay) * cluster_sum (embedInd st input) input_mask k) + st.eps) /
        ((∑ j, (st.decay * st.cluster_size j +
            (1 - st.decay) * cluster_sum (embedInd st input) input_mask j)) +
          (K + 1 : ℕ) * st.eps) *
        (∑ j, (st.decay * st.cluster_size j +
            (1 - st.decay) * cluster_sum (embedInd st input) input_mask j))),
    cluster_size := fun k =>
      st.decay * st.cluster_size k +
        (1 - st.decay) * cluster_sum (embedInd st input) input_mask k,
    embed_avg := fun c k =>
      st.decay * st.embed_avg c k +
        (1 - st.decay) * embed_sum input (embedInd st input) input_mask c k,
    decay := st.decay,
    eps := st.eps }

/-- The tensors returned by `Quantize.forward`: the straight-through output,
the scalar `diff`, and `embed_ind` (the debugging `stats` dict is omitted). -/
structure QuantizeOutput (dim K T B : ℕ) where
  quantize : Fin T → Fin B → Fin dim → ℚ
  diff : ℚ
  embed_ind : Fin T → Fin B → Fin (K + 1)

/-- `Quantize.forward` (lines 79-147): nearest-code assignment, the
training-mode EMA buffer update, masking of `quantize` and `input`, the
mean-squared `diff`, and the straight-through output
`input + (quantize - input).detach()` (`detach` is the identity on values). -/
def Quantize.forward {dim K T B : ℕ} (training : Bool)
    (st : QuantizeState dim (K + 1)) (input : Fin T → Fin B → Fin dim → ℚ)
    (input_mask : Fin T → Fin B → Bool) :
    QuantizeState dim (K + 1) × QuantizeOutput dim K T B :=
  (if training then updateState st input input_mask else st,
   { quantize := fun t b c =>
       input t b c * (if input_mask t b then 1 else 0) +
         (embed_code st (embedInd st input) t b c * (if input_mask t b then 1 else 0) -
           input t b c * (if input_mask t b then 1 else 0)),
     diff :=
       (∑ t, ∑ b, ∑ c,
         (embed_code st (embedInd st input) t b c * (if input_mask t b then 1 else 0) -
           input t b c * (if input_mask t b then 1 else 0)) ^ 2) /
       ((T : ℚ) * B * dim),
     embed_ind := embedInd st input })

end vqvae_lm

namespace vqvae_lm

/-- The collective-communication operations appearing in the repository:
the two `torch.distributed.all_reduce` calls of `Quantize.forward`
(lines 121-123). -/
inductive DistOp where
  | allReduceClusterSum : DistOp
  | allReduceEmbedSum : DistOp
deriving DecidableEq

/-- The sequence of collective operations executed by one call of
`Quantize.forward`, as a function of `self.training` and
`torch.cuda.device_count()`, following the source's nested conditionals:
the all-reduces sit inside `if self.training:` under
`if torch.cuda.device_count() > 1:`; no other statement of the three source
files calls into `torch.distributed`. -/
def Quantize.collectiveTrace (training : Bool) (cudaDeviceCount : ℕ) :
    List DistOp :=
  if training then
    (if cudaDeviceCount > 1 then
      [DistOp.allReduceClusterSum, DistOp.allReduceEmbedSum]
    else [])
  else []

/-- The convolution input built by `VQVAE.extract_codes` (lines 423-425):
the text-encoder output with padded positions zeroed, permuted to
`B x C x T`.  The Transformer `text_encoder` is not among the provided
sources, so its output and padding mask enter as parameters; the claim
under study holds for every value of them. -/
def VQVAE.convIn {B C : ℕ} (encoder_out : ℕ → Fin B → Fin C → ℚ)
    (encoder_padding_mask : Fin B → ℕ → Bool) : Fin B → Fin C → ℕ → ℚ :=
  fun b c t => encoder_out t b c * (if encoder_padding_mask b t then 0 else 1)

/-- Valid lengths after the convolutional encoder inside
`VQVAE.extract_codes`. -/
def VQVAE.codesLen {B C : ℕ} (layers : List (ConvLayer B C))
    (encoder_out : ℕ → Fin B → Fin C → ℚ)
    (encoder_padding_mask : Fin B → ℕ → Bool) (full_lengths : Fin B → ℕ) :
    Fin B → ℕ :=
  (ConvEncoder.outState layers
    (VQVAE.convIn encoder_out encoder_padding_mask) full_lengths).lengths

/-- `T'`, the time extent of the convolutional encoder output inside
`VQVAE.extract_codes` (the maximum valid length). -/
def VQVAE.codesT {B C : ℕ} (layers : List (ConvLayer B C))
    (encoder_out : ℕ → Fin B → Fin C → ℚ)
    (encoder_padding_mask : Fin B → ℕ → Bool) (full_lengths : Fin B → ℕ) :
    ℕ :=
  Finset.univ.sup (VQVAE.codesLen layers encoder_out encoder_padding_mask full_lengths)

/-- The `T' x B x D` tensor `text_conv_out` that `VQVAE.extract_codes`
passes to the bottom quantizer. -/
def VQVAE.quantIn {B C D : ℕ} (layers : List (ConvLayer B C))
    (quant_conv : (Fin C → ℚ) → Fin D → ℚ)
    (encoder_out : ℕ → Fin B → Fin C → ℚ)
    (encoder_padding_mask : Fin B → ℕ → Bool) (full_lengths : Fin B → ℕ) :
    Fin (VQVAE.codesT layers encoder_out encoder_padding_mask full_lengths) →
      Fin B → Fin D → ℚ :=
  fun s b c =>
    (ConvEncoder.forward layers quant_conv
      (VQVAE.convIn encoder_out encoder_padding_mask) full_lengths).1 s.1 b c

/-- The transposed (`T' x B`) mask that `VQVAE.extract_codes` passes to the
bottom quantizer. -/
def VQVAE.quantMask {B C D : ℕ} (layers : List (ConvLayer B C))
    (quant_conv : (Fin C → ℚ) → Fin D → ℚ)
    (encoder_out : ℕ → Fin B → Fin C → ℚ)
    (encoder_padding_mask : Fin B → ℕ → Bool) (full_lengths : Fin B → ℕ) :
    Fin (VQVAE.codesT layers encoder_out encoder_padding_mask full_lengths) →
      Fin B → Bool :=
  fun s b =>
    (ConvEncoder.forward layers quant_conv
      (VQVAE.convIn encoder_out encoder_padding_mask) full_lengths).2 b s.1

/-- `VQVAE.extract_codes` (lines 422-433): zero the padded positions, run
the convolutional encoder, quantize with the transposed mask, and return
`embed_ind.transpose(0, 1).masked_fill(~mask, -1)` (entries outside the
`B x T'` extent are also reported as `-1`). -/
def VQVAE.extract_codes {B C D K : ℕ} (training : Bool)
    (layers : List (ConvLayer B C)) (quant_conv : (Fin C → ℚ) → Fin D → ℚ)
    (st : QuantizeState D (K + 1)) (encoder_out : ℕ → Fin B → Fin C → ℚ)
    (encoder_padding_mask : Fin B → ℕ → Bool) (full_lengths : Fin B → ℕ) :
    Fin B → ℕ → ℤ :=
  fun b t =>
    if h : t < VQVAE.codesT layers encoder_out encoder_padding_mask full_lengths then
      (if (ConvEncoder.forward layers quant_conv
            (VQVAE.convIn encoder_out encoder_padding_mask) full_lengths).2 b t then
        (((Quantize.forward training st
            (VQVAE.quantIn layers quant_conv encoder_out encoder_padding_mask full_lengths)
            (VQVAE.quantMask layers quant_conv encoder_out encoder_padding_mask full_lengths)).2.embed_ind
          ⟨t, h⟩ b : Fin (K + 1)).1 : ℤ)
      else -1)
    else -1

end vqvae_lm

namespace conv_encoder

/-- `compute_conv_mask` from `conv_encoder.py` (lines 16-23), embedded
separately from the copy in `vqvae_lm.py` so that the two can be compared. -/
def compute_conv_mask {B : ℕ} (lengths : Fin B → ℕ) (stride : ℕ) :
    (Fin B → ℕ) × (Fin B → ℕ → Bool) :=
  ((fun i => (lengths i - 1) / stride + 1),
   fun i t =>
     decide (t < Finset.univ.sup (fun j => (lengths j - 1) / stride + 1)) &&
     decide (t < (lengths i - 1) / stride + 1))

/-- Loop body of `ConvEncoder.forward` in `conv_encoder.py` (lines 35-45),
identical in text to the one in `vqvae_lm.py`. -/
def convStep {B C : ℕ} (st : vqvae_lm.ConvState B C)
    (layer : vqvae_lm.ConvLayer B C) : vqvae_lm.ConvState B C :=
  { x := fun b c t =>
      layer.1 st.x b c t *
        (if (compute_conv_mask st.lengths layer.2).2 b t then 1 else 0),
    lengths := (compute_conv_mask st.lengths layer.2).1 }

/-- `ConvEncoder.forward` from `conv_encoder.py` (lines 35-45). -/
def ConvEncoder.forward {B C D : ℕ} (layers : List (vqvae_lm.ConvLayer B C))
    (quant_conv : (Fin C → ℚ) → Fin D → ℚ)
    (input : Fin B → Fin C → ℕ → ℚ) (lengths : Fin B → ℕ) :
    (ℕ → Fin B → Fin D → ℚ) × (Fin B → ℕ → Bool) :=
  ((fun t b d =>
      quant_conv (fun c => (layers.foldl convStep ⟨input, lengths⟩).x b c t) d),
   fun b t =>
     decide (t < Finset.univ.sup (layers.foldl convStep ⟨input, lengths⟩).lengths) &&
     decide (t < (layers.foldl convStep ⟨input, lengths⟩).lengths b))

end conv_encoder

namespace vqvae_lm

theorem dist_eq_sqdist {dim K : ℕ} (st : QuantizeState dim (K + 1))
    (x : Fin dim → ℚ) (k : Fin (K + 1)) :
    dist st x k = ∑ c, (x c - st.embed c k) ^ 2 := by
  unfold dist
  rw [Finset.mul_sum, ← Finset.sum_sub_distrib, ← Finset.sum_add_distrib]
  refine Finset.sum_congr rfl (fun c _ => by ring)

theorem embedInd_min {dim K T B : ℕ} (st : QuantizeState dim (K + 1))
    (input : Fin T → Fin B → Fin dim → ℚ) (t : Fin T) (b : Fin B)
    (k : Fin (K + 1)) :
    ∑ c, (input t b c - st.embed c (embedInd st input t b)) ^ 2 ≤
      ∑ c, (input t b c - st.embed c k) ^ 2 := by
  have h := argmaxFin_ge K (fun k => -(dist st (input t b) k)) k
  rw [← dist_eq_sqdist, ← dist_eq_sqdist]
  unfold embedInd
  exact neg_le_neg_iff.mp h

theorem cluster_sum_eq_card {K T B : ℕ} (ind : Fin T → Fin B → Fin (K + 1))
    (input_mask : Fin T → Fin B → Bool) (k : Fin (K + 1)) :
    cluster_sum ind input_mask k =
      ((Finset.univ.filter
        (fun p : Fin T × Fin B =>
          input_mask p.1 p.2 = true ∧ ind p.1 p.2 = k)).card : ℚ) := by
  unfold cluster_sum
  rw [Finset.card_filter]
  push_cast
  rfl

theorem embed_sum_eq_filter {dim K T B : ℕ}
    (input : Fin T → Fin B → Fin dim → ℚ) (ind : Fin T → Fin B → Fin (K + 1))
    (input_mask : Fin T → Fin B → Bool) (c : Fin dim) (k : Fin (K + 1)) :
    embed_sum input ind input_mask c k =
      ∑ p ∈ Finset.univ.filter
        (fun p : Fin T × Fin B =>
          input_mask p.1 p.2 = true ∧ ind p.1 p.2 = k),
        input p.1 p.2 c := by
  unfold embed_sum
  rw [Finset.sum_filter]

theorem compute_conv_mask_mask_iff {B : ℕ} (lengths : Fin B → ℕ) (stride : ℕ)
    (i : Fin B) (t : ℕ) :
    (compute_conv_mask lengths stride).2 i t = true ↔
      t < (compute_conv_mask lengths stride).1 i := by
  unfold compute_conv_mask
  simp only [Bool.and_eq_true, decide_eq_true_eq]
  constructor
  · exact fun h => h.2
  · intro h
    refine ⟨lt_of_lt_of_le h ?_, h⟩
    exact Finset.le_sup (f := fun j => (lengths j - 1) / stride + 1)
      (Finset.mem_univ i)

theorem convStep_zero {B C : ℕ} (st : ConvState B C) (layer : ConvLayer B C)
    (b : Fin B) (c : Fin C) (t : ℕ) (h : (convStep st layer).lengths b ≤ t) :
    (convStep st layer).x b c t = 0 := by
  unfold convStep at h ⊢
  have hm : (compute_conv_mask st.lengths layer.2).2 b t = false := by
    rw [Bool.eq_false_iff]
    intro hc
    exact absurd (compute_conv_mask_mask_iff st.lengths layer.2 b t |>.mp hc)
      (not_lt.mpr h)
  simp [hm]

theorem convLoop_zero {B C : ℕ} (layers : List (ConvLayer B C))
    (st : ConvState B C)
    (hst : ∀ b c t, st.lengths b ≤ t → st.x b c t = 0) :
    ∀ b c t, (layers.foldl convStep st).lengths b ≤ t →
      (layers.foldl convStep st).x b c t = 0 := by
  induction layers generalizing st with
  | nil => exact hst
  | cons layer rest ih =>
    intro b c t h
    rw [List.foldl_cons] at h ⊢
    exact ih (convStep st layer) (fun b c t => convStep_zero st layer b c t) b c t h

end vqvae_lm

/-- C2: in every call of `Quantize.forward`, each flattened input row is
assigned an `embed_ind` minimizing the squared Euclidean distance to the
codebook columns, and the pre-mask `quantize` tensor (`embed_code` of those
indices) is the embedding lookup `quantize[t,b,:] = embed[:, embed_ind[t,b]]`. -/
theorem claim_C2_nearest_code_assignment {dim K T B : ℕ} (training : Bool)
    (st : vqvae_lm.QuantizeState dim (K + 1))
    (input : Fin T → Fin B → Fin dim → ℚ) (input_mask : Fin T → Fin B → Bool) :
    (vqvae_lm.Quantize.forward training st input input_mask).2.embed_ind =
      vqvae_lm.embedInd st input ∧
    (∀ (t : Fin T) (b : Fin B) (k : Fin (K + 1)),
      ∑ c, (input t b c - st.embed c (vqvae_lm.embedInd st input t b)) ^ 2 ≤
        ∑ c, (input t b c - st.embed c k) ^ 2) ∧
    (∀ (t : Fin T) (b : Fin B) (c : Fin dim),
      vqvae_lm.embed_code st (vqvae_lm.embedInd st input) t b c =
        st.embed c (vqvae_lm.embedInd st input t b)) :=
  ⟨rfl, fun t b k => vqvae_lm.embedInd_min st input t b k, fun _ _ _ => rfl⟩

/-- C3: the straight-through output `input + (quantize - input).detach()`
returned by `Quantize.forward` equals, as a value, the mask-zeroed code
lookup: the assigned codebook vector where `input_mask` holds, `0` elsewhere. -/
theorem claim_C3_straight_through_value {dim K T B : ℕ} (training : Bool)
    (st : vqvae_lm.QuantizeState dim (K + 1))
    (input : Fin T → Fin B → Fin dim → ℚ) (input_mask : Fin T → Fin B → Bool)
    (t : Fin T) (b : Fin B) (c : Fin dim) :
    (vqvae_lm.Quantize.forward training st input input_mask).2.quantize t b c =
      if input_mask t b then st.embed c (vqvae_lm.embedInd st input t b)
      else 0 := by
  by_cases h : input_mask t b <;>
    simp [vqvae_lm.Quantize.forward, vqvae_lm.embed_code, h]

/-- C8: in evaluation mode (`self.training` false) `Quantize.forward`
leaves the buffers `embed`, `cluster_size` and `embed_avg` unchanged: the
state after the call equals the state before it, for every input and mask. -/
theorem claim_C8_eval_mode_preserves_buffers {dim K T B : ℕ}
    (st : vqvae_lm.QuantizeState dim (K + 1))
    (input : Fin T → Fin B → Fin dim → ℚ)
    (input_mask : Fin T → Fin B → Bool) :
    (vqvae_lm.Quantize.forward false st input input_mask).1 = st := rfl

/-- C7: the collective communication performed by `Quantize.forward` is
exactly the all-reduce of `cluster_sum` followed by the all-reduce of
`embed_sum`, and only in training mode with more than one CUDA device; on
every other path the list of collective operations is empty. -/
theorem claim_C7_collective_ops (training : Bool) (cudaDeviceCount : ℕ) :
    vqvae_lm.Quantize.collectiveTrace training cudaDeviceCount =
      if training = true ∧ 1 < cudaDeviceCount then
        [vqvae_lm.DistOp.allReduceClusterSum, vqvae_lm.DistOp.allReduceEmbedSum]
      else [] := by
  cases training <;> by_cases h : 1 < cudaDeviceCount <;>
    simp [vqvae_lm.Quantize.collectiveTrace, h]

/-- C10: the `compute_conv_mask` functions of `conv_encoder.py` and
`vqvae_lm.py` compute the same function, and the two `ConvEncoder` classes
produce equal outputs for equal parameters and inputs. -/
theorem claim_C10_duplicate_defs_agree {B C D : ℕ} :
    (∀ (lengths : Fin B → ℕ) (stride : ℕ),
      conv_encoder.compute_conv_mask lengths stride =
        vqvae_lm.compute_conv_mask lengths stride) ∧
    (∀ (layers : List (vqvae_lm.ConvLayer B C))
      (quant_conv : (Fin C → ℚ) → Fin D → ℚ)
      (input : Fin B → Fin C → ℕ → ℚ) (lengths : Fin B → ℕ),
      conv_encoder.ConvEncoder.forward layers quant_conv input lengths =
        vqvae_lm.ConvEncoder.forward layers quant_conv input lengths) :=
  ⟨fun _ _ => rfl, fun _ _ _ _ => rfl⟩

/-- C1: in training mode, `Quantize.forward` updates `cluster_size` by
`d * cluster_size + (1-d) * cluster_sum` where `cluster_sum[k]` counts the
unmasked input vectors assigned to code `k`, updates `embed_avg` by
`d * embed_avg + (1-d) * embed_sum` where `embed_sum[:,k]` sums the unmasked
input vectors assigned to `k`, and then sets `embed[:,k]` to
`embed_avg[:,k] / ((cluster_size[k] + eps) / (n + K*eps) * n)` with `n` the
sum of the updated `cluster_size`. -/
theorem claim_C1_ema_codebook_update {dim K T B : ℕ}
    (st : vqvae_lm.QuantizeState dim (K + 1))
    (input : Fin T → Fin B → Fin dim → ℚ)
    (input_mask : Fin T → Fin B → Bool) :
    (∀ k, ((vqvae_lm.Quantize.forward true st input input_mask).1).cluster_size k =
        st.decay * st.cluster_size k + (1 - st.decay) *
          ((Finset.univ.filter (fun p : Fin T × Fin B =>
            input_mask p.1 p.2 = true ∧
            (vqvae_lm.Quantize.forward true st input input_mask).2.embed_ind p.1 p.2 = k)).card : ℚ)) ∧
    (∀ c k, ((vqvae_lm.Quantize.forward true st input input_mask).1).embed_avg c k =
        st.decay * st.embed_avg c k + (1 - st.decay) *
          ∑ p ∈ Finset.univ.filter (fun p : Fin T × Fin B =>
            input_mask p.1 p.2 = true ∧
            (vqvae_lm.Quantize.forward true st input input_mask).2.embed_ind p.1 p.2 = k),
            input p.1 p.2 c) ∧
    (∀ c k, ((vqvae_lm.Quantize.forward true st input input_mask).1).embed c k =
        ((vqvae_lm.Quantize.forward true st input input_mask).1).embed_avg c k /
          ((((vqvae_lm.Quantize.forward true st input input_mask).1).cluster_size k + st.eps) /
            ((∑ j, ((vqvae_lm.Quantize.forward true st input input_mask).1).cluster_size j) +
              (K + 1 : ℕ) * st.eps) *
            (∑ j, ((vqvae_lm.Quantize.forward true st input input_mask).1).cluster_size j))) := by
  refine ⟨fun k => ?_, fun c k => ?_, fun c k => rfl⟩
  · show st.decay * st.cluster_size k + (1 - st.decay) *
      vqvae_lm.cluster_sum
        ((vqvae_lm.Quantize.forward true st input input_mask).2.embed_ind) input_mask k = _
    rw [vqvae_lm.cluster_sum_eq_card]
  · show st.decay * st.embed_avg c k + (1 - st.decay) *
      vqvae_lm.embed_sum input
        ((vqvae_lm.Quantize.forward true st input input_mask).2.embed_ind) input_mask c k = _
    rw [vqvae_lm.embed_sum_eq_filter]

/-- C4: for lengths all at least `1` and stride at least `1`,
`compute_conv_mask` returns `valid_lengths = (lengths - 1) / stride + 1`
(integer division) and a mask of shape `batch x T'` with `T'` the maximum
valid length, where `mask[i][t] = true` iff `t < valid_lengths[i]`; each row
is therefore a contiguous prefix of `true` values. -/
theorem claim_C4_compute_conv_mask {B : ℕ} (lengths : Fin B → ℕ)
    (stride : ℕ) (hlen : ∀ i, 1 ≤ lengths i) (hs : 1 ≤ stride) :
    (∀ i, (vqvae_lm.compute_conv_mask lengths stride).1 i =
        (lengths i - 1) / stride + 1) ∧
    (∀ i t, (vqvae_lm.compute_conv_mask lengths stride).2 i t = true ↔
        t < (vqvae_lm.compute_conv_mask lengths stride).1 i) ∧
    (∀ i t, (vqvae_lm.compute_conv_mask lengths stride).2 i t = true →
        t < Finset.univ.sup (vqvae_lm.compute_conv_mask lengths stride).1) ∧
    (∀ i t t', (vqvae_lm.compute_conv_mask lengths stride).2 i t = true →
        t' ≤ t → (vqvae_lm.compute_conv_mask lengths stride).2 i t' = true) := by
  refine ⟨fun i => rfl,
    fun i t => vqvae_lm.compute_conv_mask_mask_iff lengths stride i t,
    fun i t h => ?_, fun i t t' h hle => ?_⟩
  · unfold vqvae_lm.compute_conv_mask at h
    simp only [Bool.and_eq_true, decide_eq_true_eq] at h
    exact h.1
  · rw [vqvae_lm.compute_conv_mask_mask_iff] at h ⊢
    exact lt_of_le_of_lt hle h

/-- Witness for C4 at `lengths = [3, 5]`, `stride = 2`. -/
theorem claim_C4_witness :
    (∀ i : Fin 2, 1 ≤ (![3, 5] : Fin 2 → ℕ) i) ∧ 1 ≤ 2 ∧
      (vqvae_lm.compute_conv_mask (![3, 5] : Fin 2 → ℕ) 2).1 0 =
        ((![3, 5] : Fin 2 → ℕ) 0 - 1) / 2 + 1 :=
  ⟨by decide, by decide,
    (claim_C4_compute_conv_mask (![3, 5]) 2 (by decide) (by decide)).1 0⟩

/-- C5: the scalar `diff` returned by `Quantize.forward` is the mean over
all `T x batch x dim` elements of the squared difference between the
mask-zeroed code lookup and the mask-zeroed input; it is nonnegative, and
it vanishes when every unmasked input vector equals its assigned codebook
vector. -/
theorem claim_C5_diff_mse {dim K T B : ℕ} (training : Bool)
    (st : vqvae_lm.QuantizeState dim (K + 1))
    (input : Fin T → Fin B → Fin dim → ℚ)
    (input_mask : Fin T → Fin B → Bool) :
    (vqvae_lm.Quantize.forward training st input input_mask).2.diff =
      (∑ t, ∑ b, ∑ c,
        ((if input_mask t b then st.embed c (vqvae_lm.embedInd st input t b) else 0) -
          (if input_mask t b then input t b c else 0)) ^ 2) /
        ((T : ℚ) * B * dim) ∧
    0 ≤ (vqvae_lm.Quantize.forward training st input input_mask).2.diff ∧
    ((∀ t b, input_mask t b = true →
        ∀ c, input t b c = st.embed c (vqvae_lm.embedInd st input t b)) →
      (vqvae_lm.Quantize.forward training st input input_mask).2.diff = 0) := by
  have hterm : ∀ (t : Fin T) (b : Fin B) (c : Fin dim),
      vqvae_lm.embed_code st (vqvae_lm.embedInd st input) t b c *
          (if input_mask t b then 1 else 0) -
        input t b c * (if input_mask t b then 1 else 0) =
      (if input_mask t b then st.embed c (vqvae_lm.embedInd st input t b) else 0) -
        (if input_mask t b then input t b c else 0) := by
    intro t b c
    by_cases h : input_mask t b <;> simp [vqvae_lm.embed_code, h]
  have h1 : (vqvae_lm.Quantize.forward training st input input_mask).2.diff =
      (∑ t, ∑ b, ∑ c,
        ((if input_mask t b then st.embed c (vqvae_lm.embedInd st input t b) else 0) -
          (if input_mask t b then input t b c else 0)) ^ 2) /
        ((T : ℚ) * B * dim) := by
    show (∑ t, ∑ b, ∑ c,
        (vqvae_lm.embed_code st (vqvae_lm.embedInd st input) t b c *
            (if input_mask t b then 1 else 0) -
          input t b c * (if input_mask t b then 1 else 0)) ^ 2) /
        ((T : ℚ) * B * dim) = _
    refine congrArg (· / ((T : ℚ) * B * dim)) ?_
    refine Finset.sum_congr rfl fun t _ => Finset.sum_congr rfl fun b _ =>
      Finset.sum_congr rfl fun c _ => ?_
    rw [hterm t b c]
  refine ⟨h1, ?_, ?_⟩
  · rw [h1]
    apply div_nonneg
    · exact Finset.sum_nonneg fun t _ => Finset.sum_nonneg fun b _ =>
        Finset.sum_nonneg fun c _ => sq_nonneg _
    · positivity
  · intro hfit
    rw [h1]
    have hz : (∑ t, ∑ b, ∑ c,
        ((if input_mask t b then st.embed c (vqvae_lm.embedInd st input t b) else 0) -
          (if input_mask t b then input t b c else 0)) ^ 2) = 0 := by
      refine Finset.sum_eq_zero fun t _ => Finset.sum_eq_zero fun b _ =>
        Finset.sum_eq_zero fun c _ => ?_
      by_cases h : input_mask t b
      · rw [hfit t b h c]
        simp
      · simp [h]
    rw [hz, zero_div]

/-- Concrete quantizer state for the witnesses: one code, one channel, the
codebook column at the origin. -/
def wSt : vqvae_lm.QuantizeState 1 1 :=
  ⟨fun _ _ => 0, fun _ => 0, fun _ _ => 0, 1 / 2, 1⟩

/-- Concrete `1 x 1 x 1` zero input for the C5 witness. -/
def wIn : Fin 1 → Fin 1 → Fin 1 → ℚ := fun _ _ _ => 0

/-- Concrete all-true mask for the C5 witness. -/
def wMask : Fin 1 → Fin 1 → Bool := fun _ _ => true

/-- Witness for C5: with a zero input matching the zero codebook column,
`diff` evaluates to `0`. -/
theorem claim_C5_witness :
    (∀ t b, wMask t b = true →
      ∀ c, wIn t b c = wSt.embed c (vqvae_lm.embedInd wSt wIn t b)) ∧
    (vqvae_lm.Quantize.forward true wSt wIn wMask).2.diff = 0 :=
  ⟨by decide, (claim_C5_diff_mse true wSt wIn wMask).2.2 (by decide)⟩

/-- C6: `ConvEncoder.forward` keeps the masking invariant through every
strided layer: after processing any prefix of the block list ending in some
layer, the intermediate activation is `0` at every time position at or
beyond the freshly computed valid length of its example, so padded
positions are zeroed before the next convolution reads them. -/
theorem claim_C6_conv_masking_invariant {B C : ℕ}
    (pre : List (vqvae_lm.ConvLayer B C)) (layer : vqvae_lm.ConvLayer B C)
    (input : Fin B → Fin C → ℕ → ℚ) (lengths : Fin B → ℕ)
    (b : Fin B) (c : Fin C) (t : ℕ)
    (h : (vqvae_lm.ConvEncoder.outState (pre ++ [layer]) input lengths).lengths b ≤ t) :
    (vqvae_lm.ConvEncoder.outState (pre ++ [layer]) input lengths).x b c t = 0 := by
  unfold vqvae_lm.ConvEncoder.outState at h ⊢
  rw [List.foldl_append, List.foldl_cons, List.foldl_nil] at h ⊢
  exact vqvae_lm.convStep_zero _ layer b c t h

/-- Concrete identity layer with stride `1` for the C6 witness. -/
def wLayer : vqvae_lm.ConvLayer 1 1 := (fun v => v, 1)

/-- Concrete all-ones activation for the C6 witness. -/
def wX : Fin 1 → Fin 1 → ℕ → ℚ := fun _ _ _ => 1

/-- Concrete length vector for the C6 witness. -/
def wLen : Fin 1 → ℕ := fun _ => 1

/-- Witness for C6: after one stride-1 layer on a length-1 example, the
activation at the padded position `t = 3` is `0`. -/
theorem claim_C6_witness :
    ((vqvae_lm.ConvEncoder.outState [wLayer] wX wLen).lengths 0 ≤ 3) ∧
    (vqvae_lm.ConvEncoder.outState [wLayer] wX wLen).x 0 0 3 = 0 :=
  ⟨by decide, claim_C6_conv_masking_invariant [] wLayer wX wLen 0 0 3 (by decide)⟩

/-- C9: every entry of `VQVAE.extract_codes` at a position valid under the
convolutional mask is the (nonnegative, `< n_embed`) nearest-codebook index
produced by the bottom quantizer, and every entry at a position where the
mask is false is exactly `-1`. -/
theorem claim_C9_extract_codes {B C D K : ℕ} (training : Bool)
    (layers : List (vqvae_lm.ConvLayer B C))
    (quant_conv : (Fin C → ℚ) → Fin D → ℚ)
    (st : vqvae_lm.QuantizeState D (K + 1))
    (encoder_out : ℕ → Fin B → Fin C → ℚ)
    (encoder_padding_mask : Fin B → ℕ → Bool) (full_lengths : Fin B → ℕ)
    (b : Fin B) (t : ℕ)
    (h : t < vqvae_lm.VQVAE.codesT layers encoder_out encoder_padding_mask full_lengths) :
    ((vqvae_lm.ConvEncoder.forward layers quant_conv
        (vqvae_lm.VQVAE.convIn encoder_out encoder_padding_mask) full_lengths).2 b t = true →
      vqvae_lm.VQVAE.extract_codes training layers quant_conv st encoder_out
          encoder_padding_mask full_lengths b t =
        (((vqvae_lm.Quantize.forward training st
            (vqvae_lm.VQVAE.quantIn layers quant_conv encoder_out encoder_padding_mask full_lengths)
            (vqvae_lm.VQVAE.quantMask layers quant_conv encoder_out encoder_padding_mask full_lengths)).2.embed_ind
          ⟨t, h⟩ b : Fin (K + 1)).1 : ℤ) ∧
      0 ≤ vqvae_lm.VQVAE.extract_codes training layers quant_conv st encoder_out
          encoder_padding_mask full_lengths b t ∧
      vqvae_lm.VQVAE.extract_codes training layers quant_conv st encoder_out
          encoder_padding_mask full_lengths b t < ((K + 1 : ℕ) : ℤ) ∧
      (∀ k, ∑ c, (vqvae_lm.VQVAE.quantIn layers quant_conv encoder_out
            encoder_padding_mask full_lengths ⟨t, h⟩ b c -
          st.embed c (vqvae_lm.embedInd st
            (vqvae_lm.VQVAE.quantIn layers quant_conv encoder_out
              encoder_padding_mask full_lengths) ⟨t, h⟩ b)) ^ 2 ≤
        ∑ c, (vqvae_lm.VQVAE.quantIn layers quant_conv encoder_out
            encoder_padding_mask full_lengths ⟨t, h⟩ b c - st.embed c k) ^ 2)) ∧
    ((vqvae_lm.ConvEncoder.forward layers quant_conv
        (vqvae_lm.VQVAE.convIn encoder_out encoder_padding_mask) full_lengths).2 b t = false →
      vqvae_lm.VQVAE.extract_codes training layers quant_conv st encoder_out
          encoder_padding_mask full_lengths b t = -1) := by
  constructor
  · intro hm
    have he : vqvae_lm.VQVAE.extract_codes training layers quant_conv st encoder_out
        encoder_padding_mask full_lengths b t =
        (((vqvae_lm.Quantize.forward training st
            (vqvae_lm.VQVAE.quantIn layers quant_conv encoder_out encoder_padding_mask full_lengths)
            (vqvae_lm.VQVAE.quantMask layers quant_conv encoder_out encoder_padding_mask full_lengths)).2.embed_ind
          ⟨t, h⟩ b : Fin (K + 1)).1 : ℤ) := by
      unfold vqvae_lm.VQVAE.extract_codes
      rw [dif_pos h, if_pos hm]
    refine ⟨he, ?_, ?_, fun k => vqvae_lm.embedInd_min st
      (vqvae_lm.VQVAE.quantIn layers quant_conv encoder_out encoder_padding_mask full_lengths)
      ⟨t, h⟩ b k⟩
    · rw [he]
      exact Int.natCast_nonneg _
    · rw [he]
      exact_mod_cast ((vqvae_lm.Quantize.forward training st
        (vqvae_lm.VQVAE.quantIn layers quant_conv encoder_out encoder_padding_mask full_lengths)
        (vqvae_lm.VQVAE.quantMask layers quant_conv encoder_out encoder_padding_mask full_lengths)).2.embed_ind
        ⟨t, h⟩ b).isLt
  · intro hm
    unfold vqvae_lm.VQVAE.extract_codes
    rw [dif_pos h, if_neg (by simp [hm])]

/-- Concrete identity layer with stride `1` on a batch of two for the C9
witness. -/
def wLayer2 : vqvae_lm.ConvLayer 2 1 := (fun v => v, 1)

/-- Concrete zero text-encoder output for the C9 witness. -/
def wEnc : ℕ → Fin 2 → Fin 1 → ℚ := fun _ _ _ => 0

/-- Concrete all-false padding mask for the C9 witness. -/
def wPad : Fin 2 → ℕ → Bool := fun _ _ => false

/-- Concrete lengths `[1, 3]` for the C9 witness. -/
def wLens : Fin 2 → ℕ := ![1, 3]

/-- Concrete `1 x 1` quant_conv for the C9 witness. -/
def wQc : (Fin 1 → ℚ) → Fin 1 → ℚ := fun v _ => v 0

/-- Witness for C9: with lengths `[1, 3]`, position `t = 1` of example `0`
is inside the `T' = 3` extent but masked off, and `extract_codes` reports
`-1` there. -/
theorem claim_C9_witness :
    (1 < vqvae_lm.VQVAE.codesT [wLayer2] wEnc wPad wLens) ∧
    ((vqvae_lm.ConvEncoder.forward [wLayer2] wQc
        (vqvae_lm.VQVAE.convIn wEnc wPad) wLens).2 0 1 = false) ∧
    vqvae_lm.VQVAE.extract_codes false [wLayer2] wQc wSt wEnc wPad wLens 0 1 = -1 :=
  ⟨by decide, by decide,
    (claim_C9_extract_codes false [wLayer2] wQc wSt wEnc wPad wLens 0 1
      (by decide)).2 (by decide)⟩
